import Mathlib

/-!
Verification of the `DatabaseRecord` engine (Active-Record style MySQL +
Memcached abstraction).  The definitions below are a shallow embedding of the
TypeScript source: JavaScript objects holding row data become association
lists from field names to `JSValue`s, the cache and database adapters become
explicit environments of responses, and each engine method becomes a Lean
function returning its new state together with a trace of externally visible
effects (SQL statements, cache operations, fired events, log lines).
-/

set_option autoImplicit false

namespace V7

/-- JavaScript primitive values as they occur in record payloads.
`vUndefined` is the JS `undefined`, distinct from `vNull` (JS `null`). -/
inductive JSValue where
  | vUndefined
  | vNull
  | vBool (b : Bool)
  | vInt (n : Int)
  | vStr (s : String)
  deriving DecidableEq, Repr

/-- JS truthiness of a value (`undefined`, `null`, `false`, `0`, `""` are falsy). -/
def JSValue.truthy : JSValue → Bool
  | .vUndefined => false
  | .vNull => false
  | .vBool b => b
  | .vInt n => n != 0
  | .vStr s => s != ""

/-- JS `String(value)` conversion for the primitive values we model. -/
def JSValue.jsString : JSValue → String
  | .vUndefined => "undefined"
  | .vNull => "null"
  | .vBool b => if b then "true" else "false"
  | .vInt n => toString n
  | .vStr s => s

/-- A record payload: a JS object modelled as an association list in key
insertion order.  A key occurs at most once (JS object keys are unique and
all operations below preserve uniqueness). -/
abbrev Payload := List (String × JSValue)

/-- Reading an own property: `Option` distinguishes an absent key. -/
def getField (p : Payload) (f : String) : Option JSValue :=
  (p.find? (fun e => e.1 = f)).map (fun e => e.2)

/-- JS property read `record[field]`: an absent key reads as `undefined`. -/
def jsIndex (p : Payload) (f : String) : JSValue :=
  (getField p f).getD .vUndefined

/-- JS property assignment `obj[field] = value`: overwrites in place when the
key exists, otherwise appends (JS objects keep insertion order). -/
def setField : Payload → String → JSValue → Payload
  | [], f, v => [(f, v)]
  | e :: tl, f, v => if e.1 = f then (f, v) :: tl else e :: setField tl f v

/-- JS `delete obj[field]`. -/
def removeField (p : Payload) (f : String) : Payload :=
  p.filter (fun e => e.1 ≠ f)

/-- Deleting a list of fields in order (a `forEach` of `delete`s). -/
def removeAll (p : Payload) (fs : List String) : Payload :=
  fs.foldl removeField p

@[simp] theorem getField_nil (g : String) : getField [] g = none := rfl

theorem getField_cons (k : String) (v : JSValue) (tl : Payload) (g : String) :
    getField ((k, v) :: tl) g = if k = g then some v else getField tl g := by
  by_cases h : k = g <;> simp [getField, List.find?, h]

theorem removeField_cons (k : String) (v : JSValue) (tl : Payload) (f : String) :
    removeField ((k, v) :: tl) f =
      if k = f then removeField tl f else (k, v) :: removeField tl f := by
  by_cases h : k = f <;> simp [removeField, List.filter, h]

theorem getField_removeField (p : Payload) (f g : String) :
    getField (removeField p f) g = if g = f then none else getField p g := by
  induction p with
  | nil => by_cases h : g = f <;> simp [removeField, h]
  | cons e tl ih =>
    obtain ⟨k, v⟩ := e
    rw [removeField_cons]
    by_cases hkf : k = f
    · rw [if_pos hkf, ih, getField_cons]
      by_cases hgf : g = f
      · simp [hgf]
      · have : ¬ k = g := by rw [hkf]; exact fun h => hgf h.symm
        simp [hgf, this]
    · rw [if_neg hkf, getField_cons, getField_cons, ih]
      by_cases hkg : k = g
      · have : ¬ g = f := by rw [← hkg]; exact hkf
        simp [hkg, this]
      · simp [hkg]

theorem getField_removeField_self (p : Payload) (f : String) :
    getField (removeField p f) f = none := by
  simp [getField_removeField]

theorem getField_removeField_of_ne (p : Payload) (f g : String) (h : g ≠ f) :
    getField (removeField p f) g = getField p g := by
  simp [getField_removeField, h]

theorem getField_removeAll (p : Payload) (fs : List String) (g : String) :
    getField (removeAll p fs) g = if g ∈ fs then none else getField p g := by
  induction fs generalizing p with
  | nil => simp [removeAll]
  | cons f tl ih =>
    have : removeAll p (f :: tl) = removeAll (removeField p f) tl := rfl
    rw [this, ih, getField_removeField]
    by_cases hmem : g ∈ tl
    · simp [hmem]
    · by_cases hgf : g = f
      · simp [hmem, hgf]
      · simp [hmem, hgf]

theorem getField_setField_self (p : Payload) (f : String) (v : JSValue) :
    getField (setField p f v) f = some v := by
  induction p with
  | nil => simp [setField, getField_cons]
  | cons e tl ih =>
    obtain ⟨k, w⟩ := e
    by_cases hkf : k = f
    · simp [setField, hkf, getField_cons]
    · simp only [setField, hkf, if_false]
      rw [getField_cons, if_neg hkf]
      exact ih

theorem getField_setField_of_ne (p : Payload) (f g : String) (v : JSValue)
    (h : g ≠ f) : getField (setField p f v) g = getField p g := by
  induction p with
  | nil => simp [setField, getField_cons, Ne.symm h]
  | cons e tl ih =>
    obtain ⟨k, w⟩ := e
    by_cases hkf : k = f
    · subst hkf
      simp [setField, getField_cons, Ne.symm h]
    · simp only [setField, hkf, if_false]
      rw [getField_cons, getField_cons, ih]

/-! ### Engine constants (from the source) -/

def DEFAULT_CACHE_EXPIRATION : Nat := 3600
def EXTENDED_CACHE_EXPIRATION : Nat := 30 * 24 * 60 * 60
def MAX_CAS_ATTEMPTS : Nat := 5
def DELETED_SENTINEL : String := "__DATABASE_RECORD_DELETED__"

/-- The constructor computes the instance's cache expiration:
`options.cacheExpiration ?? DEFAULT_CACHE_EXPIRATION`, and a requested value
of `0` is replaced by `EXTENDED_CACHE_EXPIRATION`. -/
def effectiveCacheExpiration (requested : Option Nat) : Nat :=
  let expiration := requested.getD DEFAULT_CACHE_EXPIRATION
  if expiration = 0 then EXTENDED_CACHE_EXPIRATION else expiration

/-- `decorateRecord`: stamps `cacheTimestamp` with the current unix time and
`cacheExpires` with `cacheExpiration === 0 ? 0 : timestamp + cacheExpiration`. -/
def decorateRecord (cacheExpiration : Nat) (now : Nat) (record : Payload) : Payload :=
  let p := setField record "cacheTimestamp" (.vInt (now : Int))
  setField p "cacheExpires"
    (if cacheExpiration = 0 then .vInt 0 else .vInt ((now : Int) + (cacheExpiration : Int)))

/-- The three cache-bookkeeping fields skipped by `sanitiseUpdatePayload` and
`persistUpdate`. -/
def isBookkeepingField (f : String) : Bool :=
  f = "extraTableRead" || f = "cacheTimestamp" || f = "cacheExpires"

/-- `sanitiseUpdatePayload`: drops bookkeeping fields and any field whose
proposed value is `undefined` or strictly equal (`===`) to the current value
`this.record[field]` (an absent field reads as `undefined`).  When no record
is loaded the payload is returned unchanged.  Update values are modelled as
scalar `JSValue`s (the raw-SQL-expression escape hatch is an object, never
`===`-equal to a stored scalar, so it always survives this filter). -/
def sanitiseUpdatePayload (record : Option Payload)
    (payload : List (String × JSValue)) : List (String × JSValue) :=
  match record with
  | none => payload
  | some r =>
    payload.foldl (fun acc e =>
      if isBookkeepingField e.1 then acc
      else if e.2 ≠ JSValue.vUndefined ∧ e.2 ≠ jsIndex r e.1 then setField acc e.1 e.2
      else acc) []

/-- `applyUpdateToRecord`: starting from a copy of `record`, every update
entry whose value is `null` or `undefined` deletes the field, every other
entry assigns it; afterwards, for every update key, every field declared
dependent on it is deleted. -/
def applyUpdateToRecord (deps : String → List String) (record : Payload)
    (update : List (String × JSValue)) : Payload :=
  let next := update.foldl (fun acc e =>
    if e.2 = JSValue.vNull ∨ e.2 = JSValue.vUndefined then removeField acc e.1
    else setField acc e.1 e.2) record
  update.foldl (fun acc e => removeAll acc (deps e.1)) next

/-- `mergeRecord`: `Object.assign(this.record, update)` — plain assignment of
every update entry, no deletion and no dependency handling. -/
def mergeRecord (record : Payload) (update : List (String × JSValue)) : Payload :=
  update.foldl (fun acc e => setField acc e.1 e.2) record

/-! ### Cache keys -/

/-- JS `String.prototype.toLowerCase` (ASCII-faithful). -/
def jsToLowerCase (s : String) : String := s.toLower

/-- JS `Array.prototype.join(".")`. -/
def joinDot : List String → String
  | [] => ""
  | [x] => x
  | x :: xs => x ++ "." ++ joinDot xs

/-- `makeCacheKey`: the fragment list starts with `V4{db}.{table}` and gains
`{field.toLowerCase()}.{String(value).toLowerCase()}` per key field, then is
joined with `"."`. -/
def makeCacheKey (dbName tableName : String)
    (keyValues : List (String × JSValue)) : String :=
  let fragments := ("V4" ++ dbName ++ "." ++ tableName) ::
    keyValues.map (fun e => jsToLowerCase e.1 ++ "." ++ jsToLowerCase e.2.jsString)
  joinDot fragments

/-- `makeMetaCacheKey`: `V4{db}.{table}.metadata`. -/
def makeMetaCacheKey (dbName tableName : String) : String :=
  "V4" ++ dbName ++ "." ++ tableName ++ ".metadata"

/-- The record cache key exactly as the spec words it: the prefix
`"V4" + databaseName + "." + tableName` followed by, for each key field in
iteration order, `"." + lowercase(fieldName) + "." + lowercase(stringValue)`. -/
def specCacheKey (dbName tableName : String)
    (keyValues : List (String × JSValue)) : String :=
  keyValues.foldl
    (fun acc e => acc ++ "." ++ jsToLowerCase e.1 ++ "." ++ jsToLowerCase e.2.jsString)
    ("V4" ++ dbName ++ "." ++ tableName)

theorem joinDot_cons_eq_foldl (x : String) (xs : List String) :
    joinDot (x :: xs) = xs.foldl (fun acc s => acc ++ "." ++ s) x := by
  induction xs generalizing x with
  | nil => rfl
  | cons y ys ih =>
    have hfold : ∀ (ys : List String) (a b : String),
        a ++ "." ++ ys.foldl (fun acc s => acc ++ "." ++ s) b =
          ys.foldl (fun acc s => acc ++ "." ++ s) (a ++ "." ++ b) := by
      intro ys
      induction ys with
      | nil => intro a b; rfl
      | cons z zs ihz =>
        intro a b
        simp only [List.foldl_cons]
        rw [ihz a (b ++ "." ++ z)]
        simp [String.append_assoc]
    calc joinDot (x :: y :: ys) = x ++ "." ++ joinDot (y :: ys) := rfl
      _ = x ++ "." ++ ys.foldl (fun acc s => acc ++ "." ++ s) y := by rw [ih]
      _ = ys.foldl (fun acc s => acc ++ "." ++ s) (x ++ "." ++ y) := hfold ys x y
      _ = (y :: ys).foldl (fun acc s => acc ++ "." ++ s) x := by simp

theorem makeCacheKey_eq_specCacheKey (dbName tableName : String)
    (keyValues : List (String × JSValue)) :
    makeCacheKey dbName tableName keyValues =
      specCacheKey dbName tableName keyValues := by
  unfold makeCacheKey specCacheKey
  rw [joinDot_cons_eq_foldl, List.foldl_map]
  simp [String.append_assoc]

/-! ### Effects and cache model -/

/-- A value held under a record cache key: a record payload (a JS object), the
deletion sentinel string, or some other non-object scalar. -/
inductive CacheValue where
  | payload (p : Payload)
  | sentinel
  | scalar (v : JSValue)
  deriving DecidableEq, Repr

/-- Externally visible effects, in the order the engine performs them. -/
inductive Effect where
  | sqlQuery (sql : String)
  | sqlExec (sql : String)
  | cacheGet (key : String)
  | cacheGets (key : String)
  | cacheSet (key : String) (ttl : Nat)
  | cacheAdd (key : String) (ttl : Nat)
  | cacheAddSentinel (key : String) (ttl : Nat)
  | cacheCas (key : String)
  | cacheDel (key : String)
  | event (name : String)
  | hookNoRecord
  | hookFoundRecord
  | logDebug (msg : String)
  | logWarn (msg : String)
  | logError (msg : String)
  deriving DecidableEq, Repr

/-- Outcome of one CAS attempt, as seen by the engine: whether `Cache.cas`
returned true, together with what the follow-up `Cache.gets` re-read returns
(`none` models a missing entry). -/
inductive CasOutcome where
  | success (refreshed : Option (CacheValue × Nat))
  | failure (refreshed : Option (CacheValue × Nat))

/-- Result of `performCasUpdate`: the final in-memory record, the new value of
`this.casToken` when it was reassigned, the candidate accepted by `Cache.cas`
when one was, the number of `Cache.cas` calls made, whether the
max-attempts warning fired, and the effect trace. -/
structure CasResult where
  record : Payload
  tokenUpdate : Option Nat
  written : Option Payload
  casCalls : Nat
  warnExceeded : Bool
  trace : List Effect

/-- `performCasUpdate`, the CAS retry protocol.  `env attempt` supplies the
cache adapter's responses for that attempt.  Mirrors the source: an attempt
counter past `MAX_CAS_ATTEMPTS` logs a warning and returns; otherwise the
candidate is `applyUpdateToRecord` of the current base; on CAS success the
re-read value is adopted when it is an object, else the candidate; on CAS
failure with a missing/non-object re-read the update is dropped with an error
log; on CAS failure with a fresh entry the engine adopts it and retries. -/
def performCasUpdate (env : Nat → CasOutcome) (deps : String → List String)
    (cacheKey : String) (record : Payload) (casToken : Nat)
    (update : Option (List (String × JSValue))) (attempt : Nat) : CasResult :=
  if MAX_CAS_ATTEMPTS < attempt then
    ⟨record, none, none, 0, true, [.logWarn "Exceeded maximum CAS attempts"]⟩
  else
    let candidate := match update with
      | some u => applyUpdateToRecord deps record u
      | none => record
    match env attempt with
    | .success refreshed =>
      match refreshed with
      | some (.payload v, tok) =>
        ⟨v, some tok, some candidate, 1, false, [.cacheCas cacheKey, .cacheGets cacheKey]⟩
      | _ =>
        ⟨candidate, none, some candidate, 1, false, [.cacheCas cacheKey, .cacheGets cacheKey]⟩
    | .failure refreshed =>
      match refreshed with
      | some (.payload v, tok) =>
        let rest := performCasUpdate env deps cacheKey v tok update (attempt + 1)
        ⟨rest.record, rest.tokenUpdate, rest.written, rest.casCalls + 1, rest.warnExceeded,
          [.cacheCas cacheKey, .cacheGets cacheKey] ++ rest.trace⟩
      | _ =>
        ⟨record, none, none, 1, false,
          [.cacheCas cacheKey, .cacheGets cacheKey,
            .logError "Cache entry missing after CAS failure"]⟩
  termination_by MAX_CAS_ATTEMPTS + 1 - attempt
  decreasing_by omega

/-- Result of `updateCache`: new in-memory record, new `this.casToken`, trace. -/
structure UpdateCacheResult where
  record : Payload
  casToken : Option Nat
  trace : List Effect
  deriving Repr

/-- `updateCache`: with caching disabled, or without a CAS token, the update
is merged into the in-memory payload with `mergeRecord` and the cache is not
touched; otherwise the CAS retry protocol runs starting from a copy of the
current record at attempt 1. -/
def updateCache (cacheEnabled : Bool) (casEnv : Nat → CasOutcome)
    (deps : String → List String) (cacheKey : String) (record : Payload)
    (casToken : Option Nat) (update : Option (List (String × JSValue))) :
    UpdateCacheResult :=
  if ¬ cacheEnabled then
    ⟨match update with | some u => mergeRecord record u | none => record, casToken, []⟩
  else
    match casToken with
    | none =>
      ⟨match update with | some u => mergeRecord record u | none => record, none,
        [.logDebug "No CAS token available; skipping cache update"]⟩
    | some tok =>
      let res := performCasUpdate casEnv deps cacheKey record tok update 1
      ⟨res.record, some (res.tokenUpdate.getD tok), res.trace⟩

/-! ### Lemmas about the CAS protocol -/

theorem performCasUpdate_exceeded (env : Nat → CasOutcome)
    (deps : String → List String) (key : String) (r : Payload) (tok : Nat)
    (u : Option (List (String × JSValue))) (attempt : Nat)
    (h : MAX_CAS_ATTEMPTS < attempt) :
    performCasUpdate env deps key r tok u attempt =
      ⟨r, none, none, 0, true, [.logWarn "Exceeded maximum CAS attempts"]⟩ := by
  unfold performCasUpdate
  simp [h]

theorem performCasUpdate_fail_step (env : Nat → CasOutcome)
    (deps : String → List String) (key : String) (r : Payload) (tok : Nat)
    (u : Option (List (String × JSValue))) (attempt : Nat) (v : Payload) (t : Nat)
    (hle : ¬ MAX_CAS_ATTEMPTS < attempt)
    (henv : env attempt = .failure (some (.payload v, t))) :
    performCasUpdate env deps key r tok u attempt =
      { record := (performCasUpdate env deps key v t u (attempt + 1)).record
        tokenUpdate := (performCasUpdate env deps key v t u (attempt + 1)).tokenUpdate
        written := (performCasUpdate env deps key v t u (attempt + 1)).written
        casCalls := (performCasUpdate env deps key v t u (attempt + 1)).casCalls + 1
        warnExceeded := (performCasUpdate env deps key v t u (attempt + 1)).warnExceeded
        trace := [.cacheCas key, .cacheGets key] ++
          (performCasUpdate env deps key v t u (attempt + 1)).trace } := by
  rw [performCasUpdate.eq_def]
  simp [hle, henv]

theorem performCasUpdate_casCalls_le (env : Nat → CasOutcome)
    (deps : String → List String) (key : String)
    (u : Option (List (String × JSValue))) :
    ∀ (k attempt : Nat), MAX_CAS_ATTEMPTS + 1 - attempt ≤ k →
      ∀ (r : Payload) (tok : Nat),
        (performCasUpdate env deps key r tok u attempt).casCalls ≤
          MAX_CAS_ATTEMPTS + 1 - attempt := by
  intro k
  induction k with
  | zero =>
    intro attempt hk r tok
    have h : MAX_CAS_ATTEMPTS < attempt := by omega
    rw [performCasUpdate_exceeded env deps key r tok u attempt h]
    exact Nat.zero_le _
  | succ n ih =>
    intro attempt hk r tok
    by_cases h : MAX_CAS_ATTEMPTS < attempt
    · rw [performCasUpdate_exceeded env deps key r tok u attempt h]
      exact Nat.zero_le _
    · rw [performCasUpdate.eq_def]
      simp only [h, if_false]
      cases henv : env attempt with
      | success refreshed =>
        rcases refreshed with _ | ⟨cv, t⟩
        · simp; omega
        · cases cv <;> simp <;> omega
      | failure refreshed =>
        rcases refreshed with _ | ⟨cv, t⟩
        · simp; omega
        · cases cv with
          | payload v =>
            have := ih (attempt + 1) (by omega) v t
            simp
            omega
          | sentinel => simp; omega
          | scalar w => simp; omega
theorem getField_removeAll_mem (p : Payload) (fs : List String) (d : String)
    (hd : d ∈ fs) : getField (removeAll p fs) d = none := by
  simp [getField_removeAll, hd]

theorem getField_removeAll_none (p : Payload) (fs : List String) (d : String)
    (h : getField p d = none) : getField (removeAll p fs) d = none := by
  rw [getField_removeAll]
  by_cases hd : d ∈ fs <;> simp [hd, h]

theorem getField_foldl_removeAll_none (deps : String → List String)
    (u : List (String × JSValue)) (acc : Payload) (d : String)
    (h : getField acc d = none) :
    getField (u.foldl (fun acc e => removeAll acc (deps e.1)) acc) d = none := by
  induction u generalizing acc with
  | nil => exact h
  | cons e tl ih =>
    exact ih (removeAll acc (deps e.1)) (getField_removeAll_none acc (deps e.1) d h)

theorem getField_foldl_removeAll_of_dep (deps : String → List String)
    (u : List (String × JSValue)) (acc : Payload) (f d : String)
    (hf : f ∈ u.map Prod.fst) (hd : d ∈ deps f) :
    getField (u.foldl (fun acc e => removeAll acc (deps e.1)) acc) d = none := by
  induction u generalizing acc with
  | nil => cases hf
  | cons e tl ih =>
    rw [List.map_cons] at hf
    rcases List.mem_cons.mp hf with h | h
    · exact getField_foldl_removeAll_none deps tl _ d
        (getField_removeAll_mem acc (deps e.1) d (h ▸ hd))
    · exact ih (removeAll acc (deps e.1)) h

/-- After `applyUpdateToRecord`, every field declared dependent on any update
key is absent from the result. -/
theorem applyUpdateToRecord_dependent_absent (deps : String → List String)
    (record : Payload) (update : List (String × JSValue)) (f d : String)
    (hf : f ∈ update.map Prod.fst) (hd : d ∈ deps f) :
    getField (applyUpdateToRecord deps record update) d = none := by
  unfold applyUpdateToRecord
  exact getField_foldl_removeAll_of_dep deps update _ f d hf hd

/-- Whatever the cache adapter does, every payload `performCasUpdate` writes
through `Cache.cas` is `applyUpdateToRecord` of some base payload. -/
theorem performCasUpdate_written_shape (env : Nat → CasOutcome)
    (deps : String → List String) (key : String) (u : List (String × JSValue)) :
    ∀ (k attempt : Nat), MAX_CAS_ATTEMPTS + 1 - attempt ≤ k →
      ∀ (r : Payload) (tok : Nat) (w : Payload),
        (performCasUpdate env deps key r tok (some u) attempt).written = some w →
        ∃ base, w = applyUpdateToRecord deps base u := by
  intro k
  induction k with
  | zero =>
    intro attempt hk r tok w hw
    have h : MAX_CAS_ATTEMPTS < attempt := by omega
    rw [performCasUpdate_exceeded env deps key r tok (some u) attempt h] at hw
    cases hw
  | succ n ih =>
    intro attempt hk r tok w hw
    by_cases h : MAX_CAS_ATTEMPTS < attempt
    · rw [performCasUpdate_exceeded env deps key r tok (some u) attempt h] at hw
      cases hw
    · rw [performCasUpdate.eq_def] at hw
      simp only [h, if_false] at hw
      cases henv : env attempt with
      | success refreshed =>
        rw [henv] at hw
        rcases refreshed with _ | ⟨cv, t⟩
        · simp at hw
          exact ⟨r, hw.symm⟩
        · cases cv <;> simp at hw <;> exact ⟨r, hw.symm⟩
      | failure refreshed =>
        rw [henv] at hw
        rcases refreshed with _ | ⟨cv, t⟩
        · simp at hw
        · cases cv with
          | payload v =>
            simp at hw
            exact ih (attempt + 1) (by omega) v t w hw
          | sentinel => simp at hw
          | scalar x => simp at hw

/-! ### Record-type configuration and events -/

/-- JS `Array.prototype.join(sep)`. -/
def joinSep (sep : String) : List String → String
  | [] => ""
  | [x] => x
  | x :: xs => x ++ sep ++ joinSep sep xs

/-- Per-record-type static configuration (the subclass statics). -/
structure RecordConfig where
  dbName : String
  tableName : String
  primaryKey : List String
  extraTableName : Option String
  extraPrimaryKey : Option String
  /-- `ctor.events` in its `Record<field, event>` form; `none` means the
  array form was declared. -/
  eventsRecord : Option (List (String × String))
  /-- `ctor.events` in its array form (ignored when `eventsRecord` is set). -/
  eventsList : List String

/-- `getExtraPrimaryKeyStatic`: `extraPrimaryKey ?? primaryKeyAsArray()[0]`. -/
def getExtraPrimaryKey (cfg : RecordConfig) : String :=
  cfg.extraPrimaryKey.getD (cfg.primaryKey.headD "")

/-- `buildKeyClause`: `field = ?` fragments joined with `" AND "`. -/
def buildKeyClause (keyValues : List (String × JSValue)) : String :=
  joinSep " AND " (keyValues.map (fun e => e.1 ++ " = ?"))

def BASE_EVENTS : List String := ["insert", "update", "delete"]

/-- `isValidEvent`: base events, or the declared per-type events (array form:
membership; record form: membership among the values). -/
def isValidEvent (cfg : RecordConfig) (event : String) : Bool :=
  BASE_EVENTS.contains event ||
    (match cfg.eventsRecord with
     | none => cfg.eventsList.contains event
     | some m => (m.map Prod.snd).contains event)

/-- `fireEvent`: suppressed entirely when events are disabled; unregistered
events only log a warning; otherwise the event is emitted on the bus. -/
def fireEvent (cfg : RecordConfig) (eventsDisabled : Bool) (event : String) :
    List Effect :=
  if eventsDisabled then []
  else if ¬ isValidEvent cfg event then
    [.logWarn "Attempted to fire unregistered event"]
  else [.event event]

/-- `fireFieldEvents`: nothing for the array form; for the record form, fires
the mapped event for every field present in the sanitized update. -/
def fireFieldEvents (cfg : RecordConfig) (eventsDisabled : Bool)
    (update : List (String × JSValue)) : List Effect :=
  match cfg.eventsRecord with
  | none => []
  | some m =>
    m.foldl (fun acc fe =>
      if (update.map Prod.fst).contains fe.1 then
        acc ++ fireEvent cfg eventsDisabled fe.2
      else acc) []

/-! ### persistUpdate, update, delete -/

/-- `persistUpdate`: skips the bookkeeping fields, partitions the remaining
assignments between base and extra table by extra-field membership, executes
the base `UPDATE` when non-empty, then the extra `UPDATE` (with an `INSERT`
fallback when it affected zero rows).  With scalar values every assignment is
a `field = ?` placeholder.  SQL parameters are not part of the trace; the
composite-key throw of `getPrimaryKeyValue` (only reachable with an extra
table on a composite-key type) is outside this model. -/
def persistUpdate (cfg : RecordConfig) (keySQL : String)
    (extraFields : List String) (extraAffectedRows : Nat)
    (update : List (String × JSValue)) : List Effect :=
  let nonBk := update.filter (fun e => ¬ isBookkeepingField e.1)
  let baseNames := (nonBk.filter (fun e => ¬ extraFields.contains e.1)).map Prod.fst
  let extraNames := (nonBk.filter (fun e => extraFields.contains e.1)).map Prod.fst
  let baseAssignments := baseNames.map (fun f => f ++ " = ?")
  let extraAssignments := extraNames.map (fun f => f ++ " = ?")
  let baseTrace :=
    if baseAssignments.isEmpty then []
    else [Effect.sqlExec ("UPDATE " ++ cfg.tableName ++ " SET " ++
      joinSep ", " baseAssignments ++ " WHERE " ++ keySQL)]
  let extraTrace :=
    match cfg.extraTableName with
    | none => []
    | some extraTable =>
      if extraAssignments.isEmpty then []
      else
        let upd := Effect.sqlExec ("UPDATE " ++ extraTable ++ " SET " ++
          joinSep ", " extraAssignments ++ " WHERE " ++ getExtraPrimaryKey cfg ++ " = ?")
        if extraAffectedRows = 0 then
          [upd, Effect.sqlExec ("INSERT INTO " ++ extraTable ++ " (" ++
            joinSep ", " (getExtraPrimaryKey cfg :: extraNames) ++ ") VALUES (" ++
            joinSep ", " ("?" :: extraAssignments.map (fun _ => "?")) ++ ")")]
        else [upd]
  baseTrace ++ extraTrace

structure UpdateResult where
  record : Payload
  casToken : Option Nat
  trace : List Effect
  deriving Repr

/-- `update` for a loaded record: sanitize, and if nothing survives return
immediately with no effect at all; otherwise update the cache, persist to the
table(s), fire the `update` event and then the per-field events. -/
def update (cfg : RecordConfig) (cacheEnabled : Bool) (casEnv : Nat → CasOutcome)
    (deps : String → List String) (cacheKey keySQL : String)
    (extraFields : List String) (eventsDisabled : Bool) (extraAffectedRows : Nat)
    (record : Payload) (casToken : Option Nat)
    (data : List (String × JSValue)) : UpdateResult :=
  let sanitized := sanitiseUpdatePayload (some record) data
  if sanitized.isEmpty then ⟨record, casToken, []⟩
  else
    let cacheRes := updateCache cacheEnabled casEnv deps cacheKey record casToken (some sanitized)
    let sqlTrace := persistUpdate cfg keySQL extraFields extraAffectedRows sanitized
    let evTrace := fireEvent cfg eventsDisabled "update" ++
      fireFieldEvents cfg eventsDisabled sanitized
    ⟨cacheRes.record, cacheRes.casToken, cacheRes.trace ++ sqlTrace ++ evTrace⟩

/-- `invalidateCache`: nothing when caching is disabled; otherwise always
delete the entry, and when `timeoutSeconds > 0` add the deletion sentinel
under the same key with that TTL. -/
def invalidateCache (cacheEnabled : Bool) (cacheKey : String)
    (timeoutSeconds : Nat) : List Effect :=
  if ¬ cacheEnabled then []
  else
    [Effect.cacheDel cacheKey] ++
      (if 0 < timeoutSeconds then [Effect.cacheAddSentinel cacheKey timeoutSeconds] else [])

/-- `delete` for a loaded record: base-row `DELETE`, extra-row `DELETE` when
an extra table is configured (via `getPrimaryKeyValue`, which throws on a
composite primary key), the `delete` event, then `invalidateCache`. -/
def deleteRecord (cfg : RecordConfig) (cacheEnabled : Bool)
    (eventsDisabled : Bool) (cacheKey keySQL : String) (timeoutSeconds : Nat) :
    Except String (List Effect) :=
  let base := Effect.sqlExec ("DELETE FROM " ++ cfg.tableName ++ " WHERE " ++ keySQL)
  let tailTrace := fireEvent cfg eventsDisabled "delete" ++
    invalidateCache cacheEnabled cacheKey timeoutSeconds
  match cfg.extraTableName with
  | none => .ok ([base] ++ tailTrace)
  | some extraTable =>
    if cfg.primaryKey.length ≠ 1 then
      .error "getPrimaryKeyValue only supports single primary keys"
    else
      .ok ([base,
        Effect.sqlExec ("DELETE FROM " ++ extraTable ++ " WHERE " ++
          getExtraPrimaryKey cfg ++ " = ?")] ++ tailTrace)

/-! ### Metadata, cache hydrate, database load -/

/-- Table metadata (`TableMetadata`): the resolved dependency map and the
extra table's column defaults, both optional. -/
structure TMeta where
  dependencies : Option (List (String × List String))
  extraTableFields : Option Payload

/-- `getMetadata`: process-memoized; else a cache read, and on a miss a fresh
empty metadata object is `add`ed with a 30-minute TTL. -/
def getMetadata (cacheEnabled : Bool) (metaKey : String)
    (staticMetadata : Option TMeta) (metaCached : Option TMeta) :
    TMeta × List Effect :=
  match staticMetadata with
  | some m => (m, [])
  | none =>
    let fetched := if cacheEnabled then metaCached else none
    let t1 := if cacheEnabled then [Effect.cacheGet metaKey] else []
    match fetched with
    | some m => (m, t1)
    | none =>
      (⟨none, none⟩, t1 ++ (if cacheEnabled then [Effect.cacheAdd metaKey 1800] else []))

/-- `cacheMetadata`: a cache `set` with no TTL; failures only log. -/
def cacheMetadataTrace (cacheEnabled : Bool) (metaKey : String) : List Effect :=
  if cacheEnabled then [Effect.cacheSet metaKey 0] else []

/-- Column-default normalization in `getExtraFields`: a `null`/`undefined`
schema default becomes the empty string, the literal `CURRENT_TIMESTAMP`
becomes `0`, anything else is kept as the string the driver reported. -/
def normalizeColumnDefault (d : Option String) : JSValue :=
  match d with
  | none => .vStr ""
  | some s => if s = "CURRENT_TIMESTAMP" then .vInt 0 else .vStr s

/-- The `SHOW COLUMNS` rows folded into the extra-field default object. -/
def extraFieldsFromColumns (columns : List (String × Option String)) : Payload :=
  columns.foldl (fun acc c => setField acc c.1 (normalizeColumnDefault c.2)) []

/-- `getExtraFields`: memoized in metadata; with no extra table an empty map
is stored; otherwise `SHOW COLUMNS` is introspected and the normalized
defaults are stored in metadata and written through `cacheMetadata`. -/
def getExtraFields (cfg : RecordConfig) (cacheEnabled : Bool) (metaKey : String)
    (meta : TMeta) (columns : List (String × Option String)) :
    Payload × List Effect :=
  match meta.extraTableFields with
  | some f => (f, [])
  | none =>
    match cfg.extraTableName with
    | none => ([], cacheMetadataTrace cacheEnabled metaKey)
    | some extraTable =>
      (extraFieldsFromColumns columns,
        [Effect.sqlQuery ("SHOW COLUMNS FROM " ++ extraTable)] ++
          cacheMetadataTrace cacheEnabled metaKey)

/-- Outcome of the cache-hydrate / database-load stages. -/
structure HydrateResult where
  record : Option Payload
  casToken : Option Nat
  inCache : Bool
  trace : List Effect

/-- `tryLoadFromCache`: disabled cache reads nothing; a missing entry, the
deletion sentinel, and any non-object value are all skipped (no hydrate);
an object value is adopted together with its CAS token. -/
def tryLoadFromCache (cacheEnabled : Bool) (cacheKey : String)
    (cached : Option (CacheValue × Nat)) : HydrateResult :=
  if ¬ cacheEnabled then ⟨none, none, false, []⟩
  else
    match cached with
    | none => ⟨none, none, false, [.cacheGets cacheKey]⟩
    | some (.sentinel, _) => ⟨none, none, false, [.cacheGets cacheKey]⟩
    | some (.scalar _, _) => ⟨none, none, false, [.cacheGets cacheKey]⟩
    | some (.payload p, tok) => ⟨some p, some tok, true, [.cacheGets cacheKey]⟩

/-- `writeToCache`: `set` on a forced read, `add` otherwise (with a debug log
when the add lost the race), then a `gets` re-read whose object value (and
token) is adopted when present. -/
def writeToCache (cacheEnabled forceRead : Bool) (cacheKey : String)
    (cacheExpiration : Nat) (addStored : Bool)
    (fresh : Option (CacheValue × Nat)) :
    Option (Payload × Nat) × List Effect :=
  if ¬ cacheEnabled then (none, [])
  else
    let t1 :=
      if forceRead then [Effect.cacheSet cacheKey cacheExpiration]
      else [Effect.cacheAdd cacheKey cacheExpiration] ++
        (if addStored then [] else [Effect.logDebug "Cache add returned false - likely already stored"])
    let t2 := [Effect.cacheGets cacheKey]
    match fresh with
    | some (.payload v, tok) => (some (v, tok), t1 ++ t2)
    | _ => (none, t1 ++ t2)

/-- Environment of adapter responses for one `initialise`. -/
structure InitEnv where
  /-- `Cache.gets(cacheKey)` during `tryLoadFromCache`. -/
  cached : Option (CacheValue × Nat)
  /-- `Cache.get(metaCacheKey)` during `getMetadata`. -/
  metaCached : Option TMeta
  /-- `SHOW COLUMNS` rows (`Field`, `Default`) for the extra table. -/
  extraColumns : List (String × Option String)
  /-- First row of the base-table `SELECT`, when one matches. -/
  dbRow : Option Payload
  /-- `Date.now() / 1000` during `decorateRecord`. -/
  now : Nat
  /-- Return value of `Cache.add` in `writeToCache`. -/
  addStored : Bool
  /-- `Cache.gets(cacheKey)` re-read in `writeToCache`. -/
  fresh : Option (CacheValue × Nat)

/-- `loadFromDatabase`: the `SELECT * FROM table WHERE key` (computed columns
are always `[]` in the source), the `noRecord`/`foundRecord` hooks, record
decoration (`extraTableRead = false` when an extra table is configured), the
cache write-through, and `inCache = false`. -/
def loadFromDatabase (cfg : RecordConfig) (cacheEnabled forceRead : Bool)
    (cacheKey keySQL : String) (cacheExpiration : Nat) (env : InitEnv)
    (casToken0 : Option Nat) : HydrateResult :=
  let sql := "SELECT " ++ joinSep ", " ["*"] ++ " FROM " ++ cfg.tableName ++
    " WHERE " ++ keySQL
  match env.dbRow with
  | none => ⟨none, casToken0, false, [.sqlQuery sql, .hookNoRecord]⟩
  | some row =>
    let payload0 := decorateRecord cacheExpiration env.now row
    let payload := match cfg.extraTableName with
      | some _ => setField payload0 "extraTableRead" (.vBool false)
      | none => payload0
    let wres := writeToCache cacheEnabled forceRead cacheKey cacheExpiration
      env.addStored env.fresh
    match wres.1 with
    | some (v, tok) =>
      ⟨some v, some tok, false, [.sqlQuery sql, .hookFoundRecord] ++ wres.2⟩
    | none =>
      ⟨some payload, casToken0, false, [.sqlQuery sql, .hookFoundRecord] ++ wres.2⟩

/-- Result of `initialise`: hydrated state plus everything the instance keeps. -/
structure InitResult where
  record : Option Payload
  casToken : Option Nat
  inCache : Bool
  metadata : TMeta
  extraTableDefaults : Option Payload
  dependencies : Option (List (String × List String))
  trace : List Effect

/-- `initialise`: cache hydrate unless `forceRead`, metadata resolution, the
static dependency map (record types with declared `derivedFields` resolve it
by inversion; the claims' types declare `dependencies` directly, which the
source adopts as-is), extra-table defaults when configured, then the database
load when no record was hydrated or the read is forced. -/
def initialise (cfg : RecordConfig) (keyValues : List (String × JSValue))
    (cacheEnabled forceRead : Bool) (staticMetadata : Option TMeta)
    (staticDependencies : Option (List (String × List String)))
    (cacheExpiration : Nat) (env : InitEnv) : InitResult :=
  let cacheKey := makeCacheKey cfg.dbName cfg.tableName keyValues
  let metaKey := makeMetaCacheKey cfg.dbName cfg.tableName
  let keySQL := buildKeyClause keyValues
  let hyd :=
    if ¬ forceRead then tryLoadFromCache cacheEnabled cacheKey env.cached
    else ⟨none, none, false, []⟩
  let mres := getMetadata cacheEnabled metaKey staticMetadata env.metaCached
  let eres :=
    match cfg.extraTableName with
    | some _ =>
      let g := getExtraFields cfg cacheEnabled metaKey mres.1 env.extraColumns
      (some g.1, g.2)
    | none => (none, ([] : List Effect))
  let meta := match eres.1 with
    | some f => { mres.1 with extraTableFields := some f }
    | none => mres.1
  if hyd.record.isNone || forceRead then
    let dbres := loadFromDatabase cfg cacheEnabled forceRead cacheKey keySQL
      cacheExpiration env hyd.casToken
    ⟨dbres.record, dbres.casToken, dbres.inCache, meta, eres.1, staticDependencies,
      hyd.trace ++ mres.2 ++ eres.2 ++ dbres.trace⟩
  else
    ⟨hyd.record, hyd.casToken, hyd.inCache, meta, eres.1, staticDependencies,
      hyd.trace ++ mres.2 ++ eres.2⟩

/-- `readExtraData` for a loaded record: nothing without an extra table or a
record; nothing once `extraTableRead` is truthy; otherwise the extra row is
selected by primary key, an absent row falls back to a copy of the
introspected defaults (a present row drops the extra primary key), and the
payload plus `extraTableRead = true` is merged and written through
`updateCache`. -/
def readExtraData (cfg : RecordConfig) (cacheEnabled : Bool)
    (casEnv : Nat → CasOutcome) (deps : String → List String) (cacheKey : String)
    (extraTableDefaults : Option Payload) (record : Option Payload)
    (casToken : Option Nat) (extraRows : List Payload) :
    (Option Payload × Option Nat) × List Effect :=
  match cfg.extraTableName with
  | none => ((record, casToken), [])
  | some extraTable =>
    match record with
    | none => ((record, casToken), [])
    | some r =>
      if (jsIndex r "extraTableRead").truthy then ((record, casToken), [])
      else
        let sql := "SELECT * FROM " ++ extraTable ++ " WHERE " ++
          getExtraPrimaryKey cfg ++ " = ?"
        let payload := match extraRows with
          | [] => extraTableDefaults.getD []
          | row :: _ => removeField row (getExtraPrimaryKey cfg)
        let upd := setField payload "extraTableRead" (.vBool true)
        let merged := mergeRecord r upd
        let cacheRes := updateCache cacheEnabled casEnv deps cacheKey merged casToken (some upd)
        ((some cacheRes.record, cacheRes.casToken), [Effect.sqlQuery sql] ++ cacheRes.trace)

/-! ### insert -/

/-- A column value supplied to `insert`/`update`: a literal scalar or the raw
SQL expression escape hatch built by `DatabaseRecord.literal`. -/
inductive ColumnValue where
  | val (v : JSValue)
  | expr (sql : String) (params : List JSValue)
  deriving DecidableEq, Repr

/-- `field in data ? data[field] : undefined` over insert data. -/
def lookupColumn (data : List (String × ColumnValue)) (f : String) :
    Option ColumnValue :=
  (data.find? (fun e => e.1 = f)).map (fun e => e.2)

/-- `buildInsertFragments`: every non-extra field contributes its column name
and either its raw SQL text or a `?` placeholder (parameters untraced). -/
def buildInsertFragments (data : List (String × ColumnValue))
    (extraFields : List String) : List String × List String :=
  data.foldl (fun (acc : List String × List String) e =>
    if extraFields.contains e.1 then acc
    else
      match e.2 with
      | .expr s _ => (acc.1 ++ [e.1], acc.2 ++ [s])
      | .val _ => (acc.1 ++ [e.1], acc.2 ++ ["?"])) ([], [])

/-- `buildKeyValuesFromInsert`: for each primary-key field, an explicit value
in `data` is adopted (a raw SQL expression throws); a missing field falls
back to the generated insert id only for a single-column key, and throws for
a composite key. -/
def buildKeyValuesFromInsert (primaryKey : List String)
    (data : List (String × ColumnValue)) (insertId : Int) :
    Except String (List (String × JSValue)) :=
  primaryKey.foldlM (fun acc keyField =>
    match lookupColumn data keyField with
    | some (.expr _ _) =>
      .error ("Cannot derive primary key value from SQL expression for field " ++ keyField)
    | some (.val v) => .ok (setField acc keyField v)
    | none =>
      if primaryKey.length = 1 then .ok (setField acc keyField (.vInt insertId))
      else .error ("Missing value for composite primary key field " ++ keyField)) []

/-- `extractExtraTableData`: the extra-table columns of `data`, in declared
extra-field order. -/
def extractExtraTableData (extraFields : List String)
    (data : List (String × ColumnValue)) : List String × List String :=
  extraFields.foldl (fun (acc : List String × List String) field =>
    match lookupColumn data field with
    | none => acc
    | some (.expr s _) => (acc.1 ++ [field], acc.2 ++ [s])
    | some (.val _) => (acc.1 ++ [field], acc.2 ++ ["?"])) ([], [])

/-- Environment of adapter responses for one `insert`. -/
structure InsertEnv where
  /-- `Cache.get(metaCacheKey)` during the `getMetadata` of `getExtraFieldSet`. -/
  metaCached : Option TMeta
  /-- `SHOW COLUMNS` rows for the extra table. -/
  extraColumns : List (String × Option String)
  /-- `result.insertId` of the base `INSERT` (`none` models `undefined`). -/
  insertId : Option Int
  /-- Environment for the `forceRead` load of the new record. -/
  load : InitEnv

structure InsertResult where
  /-- `Except` models the thrown key-derivation errors; `none` inside `.ok`
  models the `insertId === undefined` early `null` return. -/
  outcome : Except String (Option InitResult)
  trace : List Effect

/-- `insert`: resolves the extra-field set when an extra table is configured,
executes the base `INSERT` (zero-column fallback form included), returns
`null` without an insert id, derives the new key (which can throw), loads the
new record with `forceRead = true`, inserts the extra row when extra columns
were supplied, and fires the `insert` event unless suppressed. -/
def insert (cfg : RecordConfig) (cacheEnabled : Bool) (emitEvent : Bool)
    (cacheExpirationOpt : Option Nat) (staticMetadata : Option TMeta)
    (env : InsertEnv) (data : List (String × ColumnValue)) : InsertResult :=
  let metaKey := makeMetaCacheKey cfg.dbName cfg.tableName
  let pre :=
    match cfg.extraTableName with
    | none => (([] : List String), ([] : List Effect))
    | some _ =>
      let mres := getMetadata cacheEnabled metaKey staticMetadata env.metaCached
      let g := getExtraFields cfg cacheEnabled metaKey mres.1 env.extraColumns
      (g.1.map Prod.fst, mres.2 ++ g.2)
  let frags := buildInsertFragments data pre.1
  let insertSql :=
    if frags.1.isEmpty then "INSERT INTO " ++ cfg.tableName ++ " () VALUES ()"
    else "INSERT INTO " ++ cfg.tableName ++ " (" ++ joinSep ", " frags.1 ++
      ") VALUES (" ++ joinSep ", " frags.2 ++ ")"
  let t0 := pre.2 ++ [Effect.sqlExec insertSql]
  match env.insertId with
  | none => ⟨.ok none, t0⟩
  | some insertId =>
    match buildKeyValuesFromInsert cfg.primaryKey data insertId with
    | .error e => ⟨.error e, t0⟩
    | .ok keyValues =>
      let inst := initialise cfg keyValues cacheEnabled true staticMetadata none
        (effectiveCacheExpiration cacheExpirationOpt) env.load
      let t1 := t0 ++ inst.trace
      let extraTrace :=
        match cfg.extraTableName with
        | none => []
        | some extraTable =>
          let ep := extractExtraTableData pre.1 data
          if ep.1.isEmpty then []
          else
            [Effect.sqlExec ("INSERT INTO " ++ extraTable ++ " (" ++
              joinSep ", " (getExtraPrimaryKey cfg :: ep.1) ++ ") VALUES (" ++
              joinSep ", " ("?" :: ep.2) ++ ")")]
      let evTrace := if emitEvent then fireEvent cfg false "insert" else []
      ⟨.ok (some inst), t1 ++ extraTrace ++ evTrace⟩

/-! ### Lemmas about merging and applying updates -/

theorem setField_mem_self (p : Payload) (f : String) (v : JSValue) :
    (f, v) ∈ setField p f v := by
  induction p with
  | nil => simp [setField]
  | cons e tl ih =>
    by_cases he : e.1 = f
    · simp [setField, he]
    · simp only [setField, he, if_false]
      exact List.mem_cons_of_mem e ih

theorem mem_keys_setField (p : Payload) (f g : String) (v : JSValue) :
    g ∈ (setField p f v).map Prod.fst ↔ g ∈ p.map Prod.fst ∨ g = f := by
  induction p with
  | nil => simp [setField, eq_comm]
  | cons e tl ih =>
    by_cases he : e.1 = f
    · subst he
      simp [setField, eq_comm]
      tauto
    · simp only [setField, he, if_false, List.map_cons, List.mem_cons, ih]
      tauto

theorem nodup_keys_setField (p : Payload) (f : String) (v : JSValue)
    (h : (p.map Prod.fst).Nodup) : ((setField p f v).map Prod.fst).Nodup := by
  induction p with
  | nil => simp [setField]
  | cons e tl ih =>
    rw [List.map_cons, List.nodup_cons] at h
    by_cases he : e.1 = f
    · subst he
      have hset : setField (e :: tl) e.1 v = (e.1, v) :: tl := by
        simp [setField]
      rw [hset, List.map_cons, List.nodup_cons]
      exact h
    · simp only [setField, he, if_false, List.map_cons, List.nodup_cons]
      refine ⟨?_, ih h.2⟩
      rw [mem_keys_setField]
      rintro (hmem | hmem)
      · exact h.1 hmem
      · exact he hmem

theorem mergeRecord_getField_not_mem (r : Payload) (u : List (String × JSValue))
    (d : String) (h : d ∉ u.map Prod.fst) :
    getField (mergeRecord r u) d = getField r d := by
  induction u generalizing r with
  | nil => rfl
  | cons e tl ih =>
    rw [List.map_cons] at h
    have hne : d ≠ e.1 := fun hh => h (by simp [hh])
    have htl : d ∉ tl.map Prod.fst := fun hh => h (List.mem_cons_of_mem _ hh)
    show getField (mergeRecord (setField r e.1 e.2) tl) d = getField r d
    rw [ih (setField r e.1 e.2) htl, getField_setField_of_ne r e.1 d e.2 hne]

theorem mergeRecord_getField_mem (r : Payload) (u : List (String × JSValue))
    (f : String) (v : JSValue) (hmem : (f, v) ∈ u)
    (hnodup : (u.map Prod.fst).Nodup) :
    getField (mergeRecord r u) f = some v := by
  induction u generalizing r with
  | nil => cases hmem
  | cons e tl ih =>
    rw [List.map_cons, List.nodup_cons] at hnodup
    rcases List.mem_cons.mp hmem with h | h
    · subst h
      show getField (mergeRecord (setField r f v) tl) f = some v
      rw [mergeRecord_getField_not_mem (setField r f v) tl f hnodup.1,
        getField_setField_self]
    · show getField (mergeRecord (setField r e.1 e.2) tl) f = some v
      exact ih (setField r e.1 e.2) h hnodup.2

theorem getField_applyFields_not_mem (u : List (String × JSValue))
    (acc : Payload) (d : String) (h : d ∉ u.map Prod.fst) :
    getField (u.foldl (fun acc e =>
      if e.2 = JSValue.vNull ∨ e.2 = JSValue.vUndefined then removeField acc e.1
      else setField acc e.1 e.2) acc) d = getField acc d := by
  induction u generalizing acc with
  | nil => rfl
  | cons e tl ih =>
    rw [List.map_cons] at h
    have hne : d ≠ e.1 := fun hh => h (by simp [hh])
    have htl : d ∉ tl.map Prod.fst := fun hh => h (List.mem_cons_of_mem _ hh)
    rw [List.foldl_cons]
    by_cases he : e.2 = JSValue.vNull ∨ e.2 = JSValue.vUndefined
    · rw [if_pos he, ih _ htl, getField_removeField_of_ne acc e.1 d hne]
    · rw [if_neg he, ih _ htl, getField_setField_of_ne acc e.1 d e.2 hne]

theorem getField_applyFields_mem_val (u : List (String × JSValue))
    (acc : Payload) (f : String) (v : JSValue) (hmem : (f, v) ∈ u)
    (hnodup : (u.map Prod.fst).Nodup)
    (hv : ¬ (v = JSValue.vNull ∨ v = JSValue.vUndefined)) :
    getField (u.foldl (fun acc e =>
      if e.2 = JSValue.vNull ∨ e.2 = JSValue.vUndefined then removeField acc e.1
      else setField acc e.1 e.2) acc) f = some v := by
  induction u generalizing acc with
  | nil => cases hmem
  | cons e tl ih =>
    rw [List.map_cons, List.nodup_cons] at hnodup
    rw [List.foldl_cons]
    rcases List.mem_cons.mp hmem with h | h
    · subst h
      rw [if_neg hv, getField_applyFields_not_mem tl _ f hnodup.1,
        getField_setField_self]
    · exact ih _ h hnodup.2

theorem getField_applyFields_mem_null (u : List (String × JSValue))
    (acc : Payload) (f : String) (v : JSValue) (hmem : (f, v) ∈ u)
    (hnodup : (u.map Prod.fst).Nodup)
    (hv : v = JSValue.vNull ∨ v = JSValue.vUndefined) :
    getField (u.foldl (fun acc e =>
      if e.2 = JSValue.vNull ∨ e.2 = JSValue.vUndefined then removeField acc e.1
      else setField acc e.1 e.2) acc) f = none := by
  induction u generalizing acc with
  | nil => cases hmem
  | cons e tl ih =>
    rw [List.map_cons, List.nodup_cons] at hnodup
    rw [List.foldl_cons]
    rcases List.mem_cons.mp hmem with h | h
    · subst h
      rw [if_pos hv, getField_applyFields_not_mem tl _ f hnodup.1,
        getField_removeField_self]
    · exact ih _ h hnodup.2

theorem getField_removeDeps_not_dep (deps : String → List String)
    (u : List (String × JSValue)) (acc : Payload) (d : String)
    (h : ∀ e ∈ u, d ∉ deps e.1) :
    getField (u.foldl (fun acc e => removeAll acc (deps e.1)) acc) d =
      getField acc d := by
  induction u generalizing acc with
  | nil => rfl
  | cons e tl ih =>
    rw [List.foldl_cons, ih _ (fun x hx => h x (List.mem_cons_of_mem e hx)),
      getField_removeAll]
    simp [h e (List.mem_cons_self e tl)]

/-- `applyUpdateToRecord` keeps a non-null update value (under unique keys,
when no update key declares the field as a dependent). -/
theorem applyUpdateToRecord_getField_mem_val (deps : String → List String)
    (r : Payload) (u : List (String × JSValue)) (f : String) (v : JSValue)
    (hmem : (f, v) ∈ u) (hnodup : (u.map Prod.fst).Nodup)
    (hv : ¬ (v = JSValue.vNull ∨ v = JSValue.vUndefined))
    (hdep : ∀ e ∈ u, f ∉ deps e.1) :
    getField (applyUpdateToRecord deps r u) f = some v := by
  unfold applyUpdateToRecord
  rw [getField_removeDeps_not_dep deps u _ f hdep]
  exact getField_applyFields_mem_val u r f v hmem hnodup hv

/-- `applyUpdateToRecord` removes a field updated to `null`/`undefined`
(under unique keys). -/
theorem applyUpdateToRecord_getField_mem_null (deps : String → List String)
    (r : Payload) (u : List (String × JSValue)) (f : String) (v : JSValue)
    (hmem : (f, v) ∈ u) (hnodup : (u.map Prod.fst).Nodup)
    (hv : v = JSValue.vNull ∨ v = JSValue.vUndefined) :
    getField (applyUpdateToRecord deps r u) f = none := by
  unfold applyUpdateToRecord
  exact getField_foldl_removeAll_none deps u _ f
    (getField_applyFields_mem_null u r f v hmem hnodup hv)

theorem performCasUpdate_success_none_step (env : Nat → CasOutcome)
    (deps : String → List String) (key : String) (r : Payload) (tok : Nat)
    (u : List (String × JSValue)) (attempt : Nat)
    (hle : ¬ MAX_CAS_ATTEMPTS < attempt) (henv : env attempt = .success none) :
    performCasUpdate env deps key r tok (some u) attempt =
      ⟨applyUpdateToRecord deps r u, none, some (applyUpdateToRecord deps r u),
        1, false, [.cacheCas key, .cacheGets key]⟩ := by
  rw [performCasUpdate.eq_def]
  simp [hle, henv]

/-! ### Claim theorems -/

/-- C1: on the CAS retry protocol, every payload accepted by `compareAndSwap`
is `applyUpdateToRecord` of some base payload — each changed field applied
with delete-on-null-or-undefined semantics (shown for unique update keys by
the null/undefined conjunct), followed by deletion of every field declared
dependent on a changed field — so the payload cached immediately after the
update contains none of the changed fields' dependents. -/
theorem C1_cas_candidate_and_dependents
    (env : Nat → CasOutcome) (deps : String → List String) (key : String)
    (record : Payload) (casToken : Nat) (u : List (String × JSValue)) (w : Payload)
    (hw : (performCasUpdate env deps key record casToken (some u) 1).written = some w) :
    (∃ base, w = applyUpdateToRecord deps base u) ∧
    (∀ f v, (f, v) ∈ u → (u.map Prod.fst).Nodup →
      (v = JSValue.vNull ∨ v = JSValue.vUndefined) → getField w f = none) ∧
    (∀ f ∈ u.map Prod.fst, ∀ d ∈ deps f, getField w d = none) := by
  obtain ⟨base, hbase⟩ := performCasUpdate_written_shape env deps key u
    (MAX_CAS_ATTEMPTS + 1) 1 (by omega) record casToken w hw
  subst hbase
  refine ⟨⟨base, rfl⟩, ?_, ?_⟩
  · intro f v hmem hnodup hv
    exact applyUpdateToRecord_getField_mem_null deps base u f v hmem hnodup hv
  · intro f hf d hd
    exact applyUpdateToRecord_dependent_absent deps base u f d hf hd

theorem C1_witness :
    (∃ base, [("name", JSValue.vStr "beta")] =
      applyUpdateToRecord (fun f => if f = "name" then ["slug"] else []) base
        [("name", JSValue.vStr "beta")]) ∧
    (∀ f v, (f, v) ∈ [("name", JSValue.vStr "beta")] →
      ([("name", JSValue.vStr "beta")].map Prod.fst).Nodup →
      (v = JSValue.vNull ∨ v = JSValue.vUndefined) →
      getField [("name", JSValue.vStr "beta")] f = none) ∧
    (∀ f ∈ [("name", JSValue.vStr "beta")].map Prod.fst,
      ∀ d ∈ (fun f => if f = "name" then ["slug"] else []) f,
        getField [("name", JSValue.vStr "beta")] d = none) :=
  C1_cas_candidate_and_dependents (fun _ => CasOutcome.success none)
    (fun f => if f = "name" then ["slug"] else []) "k"
    [("name", JSValue.vStr "alpha"), ("slug", JSValue.vStr "a")] 1
    [("name", JSValue.vStr "beta")] [("name", JSValue.vStr "beta")]
    (by
      rw [performCasUpdate_success_none_step _ _ _ _ _ _ 1 (by decide) rfl]
      rfl)

/-- C2: the CAS retry protocol calls `compareAndSwap` at most
`MAX_CAS_ATTEMPTS = 5` times; when every attempt fails (the concurrent-writer
case), exactly 5 CAS calls are made, the protocol returns normally with only
the exceeded-attempts warning (no error value, nothing written to the cache),
and the in-memory payload is the value read from the cache after the 5th
failure — the update is not applied to it. -/
theorem C2_cas_attempts_bounded (deps : String → List String) (key : String)
    (u : List (String × JSValue)) :
    (∀ (env : Nat → CasOutcome) (r : Payload) (tok : Nat),
      (performCasUpdate env deps key r tok (some u) 1).casCalls ≤ MAX_CAS_ATTEMPTS) ∧
    (∀ (env : Nat → CasOutcome) (f : Nat → Payload) (g : Nat → Nat),
      (∀ n, env n = .failure (some (.payload (f n), g n))) →
      ∀ (r : Payload) (tok : Nat),
        (performCasUpdate env deps key r tok (some u) 1).casCalls = MAX_CAS_ATTEMPTS ∧
        (performCasUpdate env deps key r tok (some u) 1).warnExceeded = true ∧
        (performCasUpdate env deps key r tok (some u) 1).written = none ∧
        (performCasUpdate env deps key r tok (some u) 1).record = f 5) := by
  constructor
  · intro env r tok
    have h := performCasUpdate_casCalls_le env deps key (some u)
      (MAX_CAS_ATTEMPTS + 1) 1 (by omega) r tok
    omega
  · intro env f g henv r tok
    have e1 := performCasUpdate_fail_step env deps key r tok (some u) 1
      (f 1) (g 1) (by decide) (henv 1)
    have e2 := performCasUpdate_fail_step env deps key (f 1) (g 1) (some u) 2
      (f 2) (g 2) (by decide) (henv 2)
    have e3 := performCasUpdate_fail_step env deps key (f 2) (g 2) (some u) 3
      (f 3) (g 3) (by decide) (henv 3)
    have e4 := performCasUpdate_fail_step env deps key (f 3) (g 3) (some u) 4
      (f 4) (g 4) (by decide) (henv 4)
    have e5 := performCasUpdate_fail_step env deps key (f 4) (g 4) (some u) 5
      (f 5) (g 5) (by decide) (henv 5)
    have e6 := performCasUpdate_exceeded env deps key (f 5) (g 5) (some u) 6
      (by decide)
    simp [e1, e2, e3, e4, e5, e6, MAX_CAS_ATTEMPTS]

theorem C2_witness :
    (performCasUpdate
        (fun n => CasOutcome.failure (some (.payload [("v", JSValue.vInt (n : Int))], n)))
        (fun _ => []) "k" [] 9
        (some [("x", JSValue.vInt 1)]) 1).casCalls = MAX_CAS_ATTEMPTS ∧
    (performCasUpdate
        (fun n => CasOutcome.failure (some (.payload [("v", JSValue.vInt (n : Int))], n)))
        (fun _ => []) "k" [] 9
        (some [("x", JSValue.vInt 1)]) 1).warnExceeded = true ∧
    (performCasUpdate
        (fun n => CasOutcome.failure (some (.payload [("v", JSValue.vInt (n : Int))], n)))
        (fun _ => []) "k" [] 9
        (some [("x", JSValue.vInt 1)]) 1).written = none ∧
    (performCasUpdate
        (fun n => CasOutcome.failure (some (.payload [("v", JSValue.vInt (n : Int))], n)))
        (fun _ => []) "k" [] 9
        (some [("x", JSValue.vInt 1)]) 1).record = [("v", JSValue.vInt 5)] :=
  (C2_cas_attempts_bounded (fun _ => []) "k" [("x", JSValue.vInt 1)]).2
    (fun n => CasOutcome.failure (some (.payload [("v", JSValue.vInt (n : Int))], n)))
    (fun n => [("v", JSValue.vInt (n : Int))]) (fun n => n) (fun _ => rfl) [] 9

/-- C6: for non-empty key values, the record cache key is exactly
`"V4" + databaseName + "." + tableName` followed by, per key field in
iteration order, `"." + lowercase(fieldName) + "." + lowercase(stringValue)`
(the spec formula `specCacheKey`), and the metadata cache key is exactly that
prefix followed by `".metadata"`. -/
theorem C6_cache_key_format (dbName tableName : String)
    (keyValues : List (String × JSValue)) (hne : keyValues ≠ []) :
    makeCacheKey dbName tableName keyValues = specCacheKey dbName tableName keyValues ∧
    makeMetaCacheKey dbName tableName = "V4" ++ dbName ++ "." ++ tableName ++ ".metadata" :=
  ⟨makeCacheKey_eq_specCacheKey dbName tableName keyValues, rfl⟩

theorem C6_witness :
    makeCacheKey "mydb" "users" [("Id", JSValue.vInt 7), ("Type", JSValue.vStr "Admin")] =
      specCacheKey "mydb" "users" [("Id", JSValue.vInt 7), ("Type", JSValue.vStr "Admin")] ∧
    makeMetaCacheKey "mydb" "users" = "V4" ++ "mydb" ++ "." ++ "users" ++ ".metadata" :=
  C6_cache_key_format "mydb" "users"
    [("Id", JSValue.vInt 7), ("Type", JSValue.vStr "Admin")] (by decide)

/-- C10: a requested `cacheExpiration` of 0 is replaced at construction by
`EXTENDED_CACHE_EXPIRATION = 2592000` seconds (30 days), so the effective
expiration is always strictly positive; consequently `decorateRecord` always
stamps `cacheExpires = cacheTimestamp + cacheExpiration` (never the
"never stale" value 0). -/
theorem C10_cache_expiration_never_zero :
    effectiveCacheExpiration (some 0) = 2592000 ∧
    (∀ requested : Option Nat, 0 < effectiveCacheExpiration requested) ∧
    (∀ (requested : Option Nat) (now : Nat) (row : Payload),
      getField (decorateRecord (effectiveCacheExpiration requested) now row)
          "cacheTimestamp" = some (.vInt (now : Int)) ∧
      getField (decorateRecord (effectiveCacheExpiration requested) now row)
          "cacheExpires" =
        some (.vInt ((now : Int) + (effectiveCacheExpiration requested : Int))) ∧
      getField (decorateRecord (effectiveCacheExpiration requested) now row)
          "cacheExpires" ≠ some (.vInt 0)) := by
  have hpos : ∀ requested : Option Nat, 0 < effectiveCacheExpiration requested := by
    intro requested
    unfold effectiveCacheExpiration
    by_cases h : requested.getD DEFAULT_CACHE_EXPIRATION = 0
    · simp [h, EXTENDED_CACHE_EXPIRATION]
    · simp only [h, if_false]
      omega
  refine ⟨by decide, hpos, ?_⟩
  intro requested now row
  have hne : effectiveCacheExpiration requested ≠ 0 := Nat.pos_iff_ne_zero.mp (hpos requested)
  unfold decorateRecord
  refine ⟨?_, ?_, ?_⟩
  · rw [getField_setField_of_ne _ _ _ _ (by decide), getField_setField_self]
  · rw [getField_setField_self, if_neg hne]
  · rw [getField_setField_self, if_neg hne]
    intro h
    have h2 : (now : Int) + (effectiveCacheExpiration requested : Int) = 0 := by
      injection h with h3
      injection h3
    omega

theorem sanitiseUpdatePayload_eq_nil (r : Payload)
    (data : List (String × JSValue))
    (h : ∀ e ∈ data, isBookkeepingField e.1 = true ∨ e.2 = JSValue.vUndefined ∨
      e.2 = jsIndex r e.1) :
    sanitiseUpdatePayload (some r) data = [] := by
  unfold sanitiseUpdatePayload
  have key : ∀ (l : List (String × JSValue)) (acc : List (String × JSValue)),
      (∀ e ∈ l, isBookkeepingField e.1 = true ∨ e.2 = JSValue.vUndefined ∨
        e.2 = jsIndex r e.1) →
      l.foldl (fun acc e =>
        if isBookkeepingField e.1 then acc
        else if e.2 ≠ JSValue.vUndefined ∧ e.2 ≠ jsIndex r e.1 then setField acc e.1 e.2
        else acc) acc = acc := by
    intro l
    induction l with
    | nil => intro acc _; rfl
    | cons e tl ih =>
      intro acc hl
      have he := hl e (List.mem_cons_self e tl)
      have hstep : (if isBookkeepingField e.1 then acc
          else if e.2 ≠ JSValue.vUndefined ∧ e.2 ≠ jsIndex r e.1 then setField acc e.1 e.2
          else acc) = acc := by
        rcases he with h1 | h2 | h3
        · simp [h1]
        · by_cases hb : isBookkeepingField e.1 <;> simp [hb, h2]
        · by_cases hb : isBookkeepingField e.1 <;> simp [hb, h3]
      rw [List.foldl_cons, hstep]
      exact ih acc (fun x hx => hl x (List.mem_cons_of_mem e hx))
  exact key data [] h

/-- C3: for a loaded record, an update whose every entry is a bookkeeping
field (`cacheTimestamp`, `cacheExpires`, `extraTableRead`), has value
`undefined`, or equals the current payload value (this covers `update({})`)
is a complete no-op: no SQL, no cache operation, no event, and the in-memory
payload and CAS token are unchanged. -/
theorem C3_noop_update (cfg : RecordConfig) (cacheEnabled : Bool)
    (casEnv : Nat → CasOutcome) (deps : String → List String)
    (cacheKey keySQL : String) (extraFields : List String)
    (eventsDisabled : Bool) (extraAffectedRows : Nat) (record : Payload)
    (casToken : Option Nat) (data : List (String × JSValue))
    (h : ∀ e ∈ data, isBookkeepingField e.1 = true ∨ e.2 = JSValue.vUndefined ∨
      e.2 = jsIndex record e.1) :
    update cfg cacheEnabled casEnv deps cacheKey keySQL extraFields
        eventsDisabled extraAffectedRows record casToken data =
      ⟨record, casToken, []⟩ := by
  unfold update
  rw [sanitiseUpdatePayload_eq_nil record data h]
  rfl

theorem C3_witness :
    update ⟨"db", "t", ["id"], none, none, none, []⟩ true
        (fun _ => CasOutcome.success none) (fun _ => []) "k" "id = ?" [] false 1
        [("id", JSValue.vInt 1), ("name", JSValue.vStr "a")] (some 4)
        [("name", JSValue.vStr "a"), ("x", JSValue.vUndefined),
          ("cacheTimestamp", JSValue.vInt 99)] =
      ⟨[("id", JSValue.vInt 1), ("name", JSValue.vStr "a")], some 4, []⟩ :=
  C3_noop_update ⟨"db", "t", ["id"], none, none, none, []⟩ true
    (fun _ => CasOutcome.success none) (fun _ => []) "k" "id = ?" [] false 1
    [("id", JSValue.vInt 1), ("name", JSValue.vStr "a")] (some 4)
    [("name", JSValue.vStr "a"), ("x", JSValue.vUndefined),
      ("cacheTimestamp", JSValue.vInt 99)]
    (by decide)

/-- C9: when `updateCache` takes the non-CAS fallback path (caching disabled
or no CAS token held), the update is merged by plain assignment
(`mergeRecord`): a field set to `null` is stored as `null` rather than
removed, and fields outside the update — in particular every declared
dependent of a changed field — keep their current values untouched. -/
theorem C9_fallback_merge_plain_assignment (cacheEnabled : Bool)
    (casEnv : Nat → CasOutcome) (deps : String → List String)
    (cacheKey : String) (record : Payload) (casToken : Option Nat)
    (u : List (String × JSValue))
    (hfb : cacheEnabled = false ∨ casToken = none) :
    (updateCache cacheEnabled casEnv deps cacheKey record casToken (some u)).record =
      mergeRecord record u ∧
    (∀ f, (f, JSValue.vNull) ∈ u → (u.map Prod.fst).Nodup →
      getField (updateCache cacheEnabled casEnv deps cacheKey record casToken
        (some u)).record f = some JSValue.vNull) ∧
    (∀ d, d ∉ u.map Prod.fst →
      getField (updateCache cacheEnabled casEnv deps cacheKey record casToken
        (some u)).record d = getField record d) := by
  have hrec : (updateCache cacheEnabled casEnv deps cacheKey record casToken
      (some u)).record = mergeRecord record u := by
    rcases hfb with h | h
    · subst h
      rfl
    · subst h
      cases cacheEnabled <;> rfl
  refine ⟨hrec, ?_, ?_⟩
  · intro f hmem hnodup
    rw [hrec]
    exact mergeRecord_getField_mem record u f JSValue.vNull hmem hnodup
  · intro d hd
    rw [hrec]
    exact mergeRecord_getField_not_mem record u d hd

theorem C9_witness :
    (updateCache true (fun _ => CasOutcome.success none)
        (fun f => if f = "name" then ["slug"] else []) "k"
        [("name", JSValue.vStr "a"), ("slug", JSValue.vStr "s")] none
        (some [("name", JSValue.vNull)])).record =
      mergeRecord [("name", JSValue.vStr "a"), ("slug", JSValue.vStr "s")]
        [("name", JSValue.vNull)] ∧
    (∀ f, (f, JSValue.vNull) ∈ [("name", JSValue.vNull)] →
      ([("name", JSValue.vNull)].map Prod.fst).Nodup →
      getField (updateCache true (fun _ => CasOutcome.success none)
        (fun f => if f = "name" then ["slug"] else []) "k"
        [("name", JSValue.vStr "a"), ("slug", JSValue.vStr "s")] none
        (some [("name", JSValue.vNull)])).record f = some JSValue.vNull) ∧
    (∀ d, d ∉ [("name", JSValue.vNull)].map Prod.fst →
      getField (updateCache true (fun _ => CasOutcome.success none)
        (fun f => if f = "name" then ["slug"] else []) "k"
        [("name", JSValue.vStr "a"), ("slug", JSValue.vStr "s")] none
        (some [("name", JSValue.vNull)])).record d =
        getField [("name", JSValue.vStr "a"), ("slug", JSValue.vStr "s")] d) :=
  C9_fallback_merge_plain_assignment true (fun _ => CasOutcome.success none)
    (fun f => if f = "name" then ["slug"] else []) "k"
    [("name", JSValue.vStr "a"), ("slug", JSValue.vStr "s")] none
    [("name", JSValue.vNull)] (Or.inr rfl)

/-- C7: for a loaded record with caching enabled and events on, `delete`
executes the base-table `DELETE`, a separate extra-table `DELETE` exactly
when an extra table is configured, fires the `delete` event, then
unconditionally deletes the cache entry; a deletion sentinel with TTL
`timeoutSeconds` is added exactly when `timeoutSeconds > 0`. -/
theorem C7_delete_trace (cfg : RecordConfig) (cacheKey keySQL : String)
    (timeoutSeconds : Nat)
    (hpk : cfg.extraTableName = none ∨ cfg.primaryKey.length = 1) :
    deleteRecord cfg true false cacheKey keySQL timeoutSeconds =
      .ok ([Effect.sqlExec ("DELETE FROM " ++ cfg.tableName ++ " WHERE " ++ keySQL)] ++
        (match cfg.extraTableName with
          | some extraTable =>
            [Effect.sqlExec ("DELETE FROM " ++ extraTable ++ " WHERE " ++
              getExtraPrimaryKey cfg ++ " = ?")]
          | none => []) ++
        [Effect.event "delete", Effect.cacheDel cacheKey] ++
        (if 0 < timeoutSeconds then
          [Effect.cacheAddSentinel cacheKey timeoutSeconds] else [])) := by
  have hvalid : isValidEvent cfg "delete" = true := by
    simp [isValidEvent, BASE_EVENTS]
  cases hext : cfg.extraTableName with
  | none =>
    simp [deleteRecord, hext, fireEvent, hvalid, invalidateCache]
  | some extraTable =>
    have hlen : cfg.primaryKey.length = 1 := by
      rcases hpk with h | h
      · rw [hext] at h; cases h
      · exact h
    simp [deleteRecord, hext, hlen, fireEvent, hvalid, invalidateCache]

theorem C7_witness :
    deleteRecord ⟨"db", "t", ["id"], some "t_extra", none, none, []⟩ true false
        "k" "id = ?" 5 =
      .ok ([Effect.sqlExec ("DELETE FROM " ++ "t" ++ " WHERE " ++ "id = ?")] ++
        [Effect.sqlExec ("DELETE FROM " ++ "t_extra" ++ " WHERE " ++
          getExtraPrimaryKey ⟨"db", "t", ["id"], some "t_extra", none, none, []⟩ ++ " = ?")] ++
        [Effect.event "delete", Effect.cacheDel "k"] ++
        (if 0 < 5 then [Effect.cacheAddSentinel "k" 5] else [])) :=
  C7_delete_trace ⟨"db", "t", ["id"], some "t_extra", none, none, []⟩ "k" "id = ?" 5
    (Or.inr rfl)

theorem loadFromDatabase_starts_with_select (cfg : RecordConfig)
    (ce fr : Bool) (ck ks : String) (exp : Nat) (env : InitEnv)
    (tok : Option Nat) :
    (loadFromDatabase cfg ce fr ck ks exp env tok).inCache = false ∧
    ∃ rest, (loadFromDatabase cfg ce fr ck ks exp env tok).trace =
      Effect.sqlQuery ("SELECT " ++ joinSep ", " ["*"] ++ " FROM " ++
        cfg.tableName ++ " WHERE " ++ ks) :: rest := by
  unfold loadFromDatabase
  cases env.dbRow with
  | none => exact ⟨rfl, [Effect.hookNoRecord], rfl⟩
  | some row =>
    rcases hw : (writeToCache ce fr ck exp env.addStored env.fresh).1 with _ | ⟨v, tk⟩ <;>
      simp [hw]

/-- C4 counterexample: a load whose cache read returns the deletion sentinel
nevertheless issues the base-table `SELECT` — the sentinel is handled as a
cache miss, not as a do-not-requery marker, so the claim's "no SELECT is
issued for that load" is false. -/
theorem C4_counterexample :
    Effect.sqlQuery "SELECT * FROM t WHERE id = ?" ∈
      (initialise ⟨"db", "t", ["id"], none, none, none, []⟩
        [("id", JSValue.vInt 1)] true false none none 3600
        ⟨some (CacheValue.sentinel, 3), none, [],
          some [("id", JSValue.vInt 1), ("name", JSValue.vStr "A")],
          1000, true, none⟩).trace := by
  decide

/-- C4 (amended): a load whose cache read returns the deletion sentinel does
not treat the sentinel as a valid payload — the cache hydrate adopts no
record and the load is not marked in-cache — but it does proceed to re-query
the database: the base-table `SELECT` is issued. -/
theorem C4_amended_sentinel_skipped_but_requeried (cfg : RecordConfig)
    (kv : List (String × JSValue)) (sm : Option TMeta)
    (sd : Option (List (String × List String))) (exp : Nat) (env : InitEnv)
    (t : Nat) (hc : env.cached = some (CacheValue.sentinel, t)) :
    (tryLoadFromCache true (makeCacheKey cfg.dbName cfg.tableName kv)
      env.cached).record = none ∧
    (initialise cfg kv true false sm sd exp env).inCache = false ∧
    Effect.sqlQuery ("SELECT " ++ joinSep ", " ["*"] ++ " FROM " ++
        cfg.tableName ++ " WHERE " ++ buildKeyClause kv) ∈
      (initialise cfg kv true false sm sd exp env).trace := by
  refine ⟨by rw [hc]; rfl, ?_⟩
  obtain ⟨hin, rest, htr⟩ := loadFromDatabase_starts_with_select cfg true false
    (makeCacheKey cfg.dbName cfg.tableName kv) (buildKeyClause kv) exp env none
  have hhyd : tryLoadFromCache true (makeCacheKey cfg.dbName cfg.tableName kv)
      env.cached = ⟨none, none, false,
        [.cacheGets (makeCacheKey cfg.dbName cfg.tableName kv)]⟩ := by
    rw [hc]; rfl
  constructor
  · simp only [initialise, hhyd]
    simp [hin]
  · simp only [initialise, hhyd]
    simp [htr]

theorem C4_amended_witness :
    (tryLoadFromCache true (makeCacheKey "db" "t" [("id", JSValue.vInt 1)])
      (some (CacheValue.sentinel, 3))).record = none ∧
    (initialise ⟨"db", "t", ["id"], none, none, none, []⟩ [("id", JSValue.vInt 1)]
      true false none none 3600
      ⟨some (CacheValue.sentinel, 3), none, [],
        some [("id", JSValue.vInt 1), ("name", JSValue.vStr "A")],
        1000, true, none⟩).inCache = false ∧
    Effect.sqlQuery ("SELECT " ++ joinSep ", " ["*"] ++ " FROM " ++ "t" ++
        " WHERE " ++ buildKeyClause [("id", JSValue.vInt 1)]) ∈
      (initialise ⟨"db", "t", ["id"], none, none, none, []⟩ [("id", JSValue.vInt 1)]
        true false none none 3600
        ⟨some (CacheValue.sentinel, 3), none, [],
          some [("id", JSValue.vInt 1), ("name", JSValue.vStr "A")],
          1000, true, none⟩).trace :=
  C4_amended_sentinel_skipped_but_requeried
    ⟨"db", "t", ["id"], none, none, none, []⟩ [("id", JSValue.vInt 1)]
    none none 3600
    ⟨some (CacheValue.sentinel, 3), none, [],
      some [("id", JSValue.vInt 1), ("name", JSValue.vStr "A")],
      1000, true, none⟩ 3 rfl

/-- C5 counterexample: inserting on a composite-key type (`primaryKey =
["a","b"]`) with `b` missing does fail with the missing-composite-key error,
but the trace shows the base-table `INSERT` already executed — the failure is
not synchronous-before-I/O as the claim states. -/
theorem C5_counterexample :
    insert ⟨"db", "t", ["a", "b"], none, none, none, []⟩ true true none none
        ⟨none, [], some 7, ⟨none, none, [], none, 0, true, none⟩⟩
        [("a", ColumnValue.val (JSValue.vInt 1))] =
      ⟨.error "Missing value for composite primary key field b",
        [Effect.sqlExec "INSERT INTO t (a) VALUES (?)"]⟩ := by
  rfl

theorem buildKeyValuesFromInsert_missing_error (primaryKey : List String)
    (data : List (String × ColumnValue)) (insertId : Int)
    (hlen : primaryKey.length ≠ 1)
    (hnoexpr : ∀ k ∈ primaryKey, ∀ s ps, lookupColumn data k ≠ some (.expr s ps))
    (hmiss : ∃ k ∈ primaryKey, lookupColumn data k = none) :
    ∃ k ∈ primaryKey, lookupColumn data k = none ∧
      buildKeyValuesFromInsert primaryKey data insertId =
        .error ("Missing value for composite primary key field " ++ k) := by
  unfold buildKeyValuesFromInsert
  have key : ∀ (l : List String) (acc : List (String × JSValue)),
      (∀ k ∈ l, ∀ s ps, lookupColumn data k ≠ some (.expr s ps)) →
      (∃ k ∈ l, lookupColumn data k = none) →
      ∃ k ∈ l, lookupColumn data k = none ∧
        l.foldlM (fun acc keyField =>
          match lookupColumn data keyField with
          | some (.expr _ _) =>
            Except.error ("Cannot derive primary key value from SQL expression for field " ++ keyField)
          | some (.val v) => Except.ok (setField acc keyField v)
          | none =>
            if primaryKey.length = 1 then
              Except.ok (setField acc keyField (JSValue.vInt insertId))
            else
              Except.error ("Missing value for composite primary key field " ++ keyField)) acc =
          .error ("Missing value for composite primary key field " ++ k) := by
    intro l
    induction l with
    | nil =>
      rintro acc _ ⟨k, hk, _⟩
      cases hk
    | cons x tl ih =>
      intro acc hne hex
      cases hx : lookupColumn data x with
      | none =>
        refine ⟨x, List.mem_cons_self x tl, hx, ?_⟩
        simp only [List.foldlM, hx, if_neg hlen]
        rfl
      | some cv =>
        cases cv with
        | expr s ps => exact absurd hx (hne x (List.mem_cons_self x tl) s ps)
        | val v =>
          obtain ⟨k, hk, hkn⟩ := hex
          have hk2 : k ∈ tl := by
            rcases List.mem_cons.mp hk with h | h
            · rw [h, hx] at hkn; cases hkn
            · exact h
          obtain ⟨k3, hk3, hk3n, hfold⟩ := ih (setField acc x v)
            (fun y hy s ps => hne y (List.mem_cons_of_mem x hy) s ps) ⟨k, hk2, hkn⟩
          refine ⟨k3, List.mem_cons_of_mem x hk3, hk3n, ?_⟩
          simpa [List.foldlM, hx] using hfold
  exact key primaryKey [] hnoexpr hmiss

/-- C5 (amended): an insert on a composite-key type with a key field missing
from the data fails with the missing-composite-key error, but only after the
base-table `INSERT` has executed: for a type without an extra table the
effect trace at the failure is exactly that one `INSERT` statement (the
record load, extra-table insert and event never happen). -/
theorem C5_amended_missing_key_fails_after_insert (cfg : RecordConfig)
    (cacheEnabled emitEvent : Bool) (ceo : Option Nat) (sm : Option TMeta)
    (env : InsertEnv) (data : List (String × ColumnValue)) (insertId : Int)
    (hextra : cfg.extraTableName = none)
    (hlen : cfg.primaryKey.length ≠ 1)
    (hid : env.insertId = some insertId)
    (hnoexpr : ∀ k ∈ cfg.primaryKey, ∀ s ps, lookupColumn data k ≠ some (.expr s ps))
    (hmiss : ∃ k ∈ cfg.primaryKey, lookupColumn data k = none) :
    ∃ k ∈ cfg.primaryKey, lookupColumn data k = none ∧
      ∃ s, insert cfg cacheEnabled emitEvent ceo sm env data =
        ⟨.error ("Missing value for composite primary key field " ++ k),
          [Effect.sqlExec s]⟩ := by
  obtain ⟨k, hk, hkn, herr⟩ := buildKeyValuesFromInsert_missing_error
    cfg.primaryKey data insertId hlen hnoexpr hmiss
  refine ⟨k, hk, hkn, ?_⟩
  unfold insert
  simp only [hextra, hid, herr]
  exact ⟨_, rfl⟩

theorem C5_amended_witness :
    ∃ k ∈ (⟨"db", "t", ["a", "b"], none, none, none, []⟩ : RecordConfig).primaryKey,
      lookupColumn [("a", ColumnValue.val (JSValue.vInt 1))] k = none ∧
      ∃ s, insert ⟨"db", "t", ["a", "b"], none, none, none, []⟩ true true none none
          ⟨none, [], some 7, ⟨none, none, [], none, 0, true, none⟩⟩
          [("a", ColumnValue.val (JSValue.vInt 1))] =
        ⟨.error ("Missing value for composite primary key field " ++ k),
          [Effect.sqlExec s]⟩ :=
  C5_amended_missing_key_fails_after_insert
    ⟨"db", "t", ["a", "b"], none, none, none, []⟩ true true none none
    ⟨none, [], some 7, ⟨none, none, [], none, 0, true, none⟩⟩
    [("a", ColumnValue.val (JSValue.vInt 1))] 7 rfl (by decide) rfl
    (by
      intro k hk s ps
      simp only [List.mem_cons, List.not_mem_nil, or_false] at hk
      rcases hk with rfl | rfl <;> simp [lookupColumn, List.find?])
    ⟨"b", by decide, rfl⟩

/-- C8: for a record with an extra table configured and `extraTableRead` not
yet truthy, `readExtraData` queries the extra table by the primary key; with
no extra row it merges a copy of the introspected defaults (whose
normalization maps a null schema default to `""` and a `CURRENT_TIMESTAMP`
default to `0`), marks `extraTableRead = true`, and updates the cache (here
through a clean first-attempt CAS); a second call on the resulting record is
a complete no-op whatever the adapter would return — calling the read twice
equals calling it once. -/
theorem C8_readExtraData_idempotent (cfg : RecordConfig) (et : String)
    (casEnv : Nat → CasOutcome) (deps : String → List String) (cacheKey : String)
    (dflt : Payload) (r : Payload) (tok : Nat) (rows2 : List Payload)
    (hextra : cfg.extraTableName = some et)
    (hunread : (jsIndex r "extraTableRead").truthy = false)
    (henv : casEnv 1 = .success none)
    (hdeps : ∀ f, "extraTableRead" ∉ deps f)
    (hkeys : (dflt.map Prod.fst).Nodup) :
    ∃ recNew,
      readExtraData cfg true casEnv deps cacheKey (some dflt) (some r)
          (some tok) [] =
        ((some recNew, some tok),
          [Effect.sqlQuery ("SELECT * FROM " ++ et ++ " WHERE " ++
            getExtraPrimaryKey cfg ++ " = ?"),
           Effect.cacheCas cacheKey, Effect.cacheGets cacheKey]) ∧
      recNew = applyUpdateToRecord deps
        (mergeRecord r (setField dflt "extraTableRead" (JSValue.vBool true)))
        (setField dflt "extraTableRead" (JSValue.vBool true)) ∧
      (jsIndex recNew "extraTableRead").truthy = true ∧
      readExtraData cfg true casEnv deps cacheKey (some dflt) (some recNew)
          (some tok) rows2 =
        ((some recNew, some tok), []) ∧
      normalizeColumnDefault none = JSValue.vStr "" ∧
      normalizeColumnDefault (some "CURRENT_TIMESTAMP") = JSValue.vInt 0 := by
  have hstep := performCasUpdate_success_none_step casEnv deps cacheKey
    (mergeRecord r (setField dflt "extraTableRead" (JSValue.vBool true))) tok
    (setField dflt "extraTableRead" (JSValue.vBool true)) 1 (by decide) henv
  have htruthy : getField (applyUpdateToRecord deps
      (mergeRecord r (setField dflt "extraTableRead" (JSValue.vBool true)))
      (setField dflt "extraTableRead" (JSValue.vBool true)))
      "extraTableRead" = some (JSValue.vBool true) :=
    applyUpdateToRecord_getField_mem_val deps _ _
      "extraTableRead" (JSValue.vBool true)
      (setField_mem_self dflt "extraTableRead" (JSValue.vBool true))
      (nodup_keys_setField dflt "extraTableRead" (JSValue.vBool true) hkeys)
      (by simp) (fun e _ => hdeps e.1)
  have ht2 : (jsIndex (applyUpdateToRecord deps
      (mergeRecord r (setField dflt "extraTableRead" (JSValue.vBool true)))
      (setField dflt "extraTableRead" (JSValue.vBool true)))
      "extraTableRead").truthy = true := by
    unfold jsIndex
    rw [htruthy]
    rfl
  refine ⟨applyUpdateToRecord deps
    (mergeRecord r (setField dflt "extraTableRead" (JSValue.vBool true)))
    (setField dflt "extraTableRead" (JSValue.vBool true)), ?_, rfl, ht2, ?_, rfl, rfl⟩
  · simp [readExtraData, hextra, hunread, updateCache, hstep]
  · simp [readExtraData, hextra, ht2]

theorem C8_witness :
    ∃ recNew,
      readExtraData ⟨"db", "t", ["id"], some "t_extra", some "record_id", none, []⟩
          true (fun _ => CasOutcome.success none) (fun _ => []) "k"
          (some [("note", JSValue.vStr "")])
          (some [("id", JSValue.vInt 1), ("extraTableRead", JSValue.vBool false)])
          (some 2) [] =
        ((some recNew, some 2),
          [Effect.sqlQuery ("SELECT * FROM " ++ "t_extra" ++ " WHERE " ++
            getExtraPrimaryKey ⟨"db", "t", ["id"], some "t_extra", some "record_id", none, []⟩ ++ " = ?"),
           Effect.cacheCas "k", Effect.cacheGets "k"]) ∧
      recNew = applyUpdateToRecord (fun _ => [])
        (mergeRecord [("id", JSValue.vInt 1), ("extraTableRead", JSValue.vBool false)]
          (setField [("note", JSValue.vStr "")] "extraTableRead" (JSValue.vBool true)))
        (setField [("note", JSValue.vStr "")] "extraTableRead" (JSValue.vBool true)) ∧
      (jsIndex recNew "extraTableRead").truthy = true ∧
      readExtraData ⟨"db", "t", ["id"], some "t_extra", some "record_id", none, []⟩
          true (fun _ => CasOutcome.success none) (fun _ => []) "k"
          (some [("note", JSValue.vStr "")]) (some recNew) (some 2) [] =
        ((some recNew, some 2), []) ∧
      normalizeColumnDefault none = JSValue.vStr "" ∧
      normalizeColumnDefault (some "CURRENT_TIMESTAMP") = JSValue.vInt 0 :=
  C8_readExtraData_idempotent
    ⟨"db", "t", ["id"], some "t_extra", some "record_id", none, []⟩ "t_extra"
    (fun _ => CasOutcome.success none) (fun _ => []) "k"
    [("note", JSValue.vStr "")]
    [("id", JSValue.vInt 1), ("extraTableRead", JSValue.vBool false)] 2 []
    rfl (by decide) rfl (fun f => List.not_mem_nil _) (by decide)

end V7
